import Mathlib

/-!
Shallow embedding of the read services of the Async_API repository
(fastapi_practice/src/services/films.py, persons.py, cache_builder.py),
together with theorems about their behaviour.

Modelling conventions:
* Async methods are embedded as pure functions in the `Except Err` monad;
  a raised exception on a client call is an `Err` value.
* The Redis client is a key/value map plus a reachability flag; JSON
  serialization is modelled as the identity (pydantic round-trips the
  structured value), so cache entries hold structured values directly.
* The Elasticsearch client is modelled through the narrow contract the
  services consume: point get by id, sorted search, and a cursor scan
  presented as a list of batches.  Relevance/store order of search results
  is modelled as the order of the document list.
* Machine floats (imdb_rating) are modelled as integers: only their linear
  order is relevant to any statement proved here.
* UUID values are modelled as their canonical string rendering.
-/

namespace AsyncApi

/-- Infrastructure failure raised by a store or cache client call. -/
inductive Err where
  | cacheUnreachable
  | storeUnreachable
  | indexNotFound
  | malformedPayload
deriving Repr, DecidableEq

/-! ### Key-value cache client (Redis)

Entries pair a key with a value and an optional TTL in seconds
(`none` = no expiry, mirroring a `set` without `ex=`). -/

structure Redis (α : Type) where
  down : Bool
  entries : List (String × α × Option Nat)
deriving Repr, DecidableEq

/-- Pure lookup of a key among the cache entries (first entry wins). -/
def Redis.read {α : Type} (r : Redis α) (k : String) : Option α :=
  (r.entries.find? (fun e => decide (e.1 = k))).map (fun e => e.2.1)

/-- Pure overwrite of a key. -/
def Redis.store {α : Type} (r : Redis α) (k : String) (v : α) (ttl : Option Nat) : Redis α :=
  ⟨r.down, (k, v, ttl) :: r.entries.filter (fun e => decide (e.1 ≠ k))⟩

/-- Client call redis.get(k): raises when the cache is unreachable. -/
def Redis.get? {α : Type} (r : Redis α) (k : String) : Except Err (Option α) :=
  if r.down then .error .cacheUnreachable else .ok (r.read k)

/-- Client call redis.set(k, v, ex=ttl): raises when the cache is unreachable. -/
def Redis.set {α : Type} (r : Redis α) (k : String) (v : α) (ttl : Option Nat) :
    Except Err (Redis α) :=
  if r.down then .error .cacheUnreachable else .ok (r.store k v ttl)

/-! ### Film documents, as read by services/films.py

A nested role entry is read only through its display name there
(item["name"]).  The document carries a title (the pydantic Film model
requires one, so a titleless document would be rejected; that validation
path is outside every statement below). -/

structure NameRef where
  name : String
deriving Repr, DecidableEq

structure FilmDoc where
  id : String
  title : String
  description : Option String
  imdb_rating : Option Int
  genre : Option (List String)
  actors : Option (List NameRef)
  writers : Option (List NameRef)
  directors : Option (List NameRef)
deriving Repr, DecidableEq

/-- models/film.py: full film model. -/
structure Film where
  id : String
  title : String
  description : Option String
  imdb_rating : Option Int
  genre : List String
  actors : List String
  writers : List String
  directors : List String
deriving Repr, DecidableEq

/-- models/film.py: short film model (the three summary fields). -/
structure FilmShort where
  id : String
  title : String
  imdb_rating : Option Int
deriving Repr, DecidableEq

/-- services/films.py: FILM_CACHE_EXPIRE_IN_SECONDS = 60 * 5. -/
def FILM_CACHE_EXPIRE_IN_SECONDS : Nat := 60 * 5

/-- Elasticsearch client as consumed by FilmService.  `fieldKey` is the
store-side sort key the engine evaluates for a named field; `docs` is the
collection in store order. -/
structure EsFilmStore where
  down : Bool
  docs : List FilmDoc
  fieldKey : String → FilmDoc → Int

/-- Client call elastic.get(index="movies", id=...): `none` models the
NotFoundError that films.py catches. -/
def EsFilmStore.getDoc (es : EsFilmStore) (film_id : String) :
    Except Err (Option FilmDoc) :=
  if es.down then .error .storeUnreachable
  else .ok (es.docs.find? (fun d => decide (d.id = film_id)))

/-- Ascending order on a store sort key. -/
def ascRel (key : FilmDoc → Int) (a b : FilmDoc) : Prop := key a ≤ key b

/-- Descending order on a store sort key. -/
def descRel (key : FilmDoc → Int) (a b : FilmDoc) : Prop := key b ≤ key a

instance (key : FilmDoc → Int) : DecidableRel (ascRel key) :=
  fun a b => inferInstanceAs (Decidable (key a ≤ key b))

instance (key : FilmDoc → Int) : DecidableRel (descRel key) :=
  fun a b => inferInstanceAs (Decidable (key b ≤ key a))

/-- The document list the engine returns for a sorted, size-bounded query:
the collection sorted on the named field in the requested direction,
truncated to `size` hits. -/
def EsFilmStore.sortedDocs (es : EsFilmStore) (field : String) (desc : Bool)
    (size : Nat) : List FilmDoc :=
  (if desc then List.insertionSort (descRel (es.fieldKey field)) es.docs
   else List.insertionSort (ascRel (es.fieldKey field)) es.docs).take size

/-- Client call elastic.search(index="movies", body={sort, size, _source}). -/
def EsFilmStore.sortedSearch (es : EsFilmStore) (field : String) (desc : Bool)
    (size : Nat) : Except Err (List FilmDoc) :=
  if es.down then .error .storeUnreachable
  else .ok (es.sortedDocs field desc size)

/-- films.py extract_names: a missing or empty nested list becomes [],
otherwise the list of display names. -/
def extract_names : Option (List NameRef) → List String
  | none => []
  | some items => items.map NameRef.name

/-- The Film(...) construction inside FilmService._get_film_from_elastic:
flattening of the raw document. -/
def film_from_doc (d : FilmDoc) : Film :=
  { id := d.id
    title := d.title
    description := d.description
    imdb_rating := d.imdb_rating
    genre := d.genre.getD []
    actors := extract_names d.actors
    writers := extract_names d.writers
    directors := extract_names d.directors }

namespace FilmService

/-- FilmService._film_from_cache. -/
def film_from_cache (r : Redis Film) (film_id : String) : Except Err (Option Film) :=
  r.get? film_id

/-- FilmService._put_film_to_cache. -/
def put_film_to_cache (r : Redis Film) (film : Film) : Except Err (Redis Film) :=
  r.set film.id film (some FILM_CACHE_EXPIRE_IN_SECONDS)

/-- FilmService._get_film_from_elastic. -/
def get_film_from_elastic (es : EsFilmStore) (film_id : String) :
    Except Err (Option Film) := do
  let doc ← es.getDoc film_id
  match doc with
  | none => .ok none
  | some d => .ok (some (film_from_doc d))

/-- FilmService.get_by_id, with the cache state threaded explicitly. -/
def get_by_id (r : Redis Film) (es : EsFilmStore) (film_id : String) :
    Except Err (Option Film × Redis Film) := do
  let cached ← film_from_cache r film_id
  match cached with
  | some film => .ok (some film, r)
  | none => do
    let fetched ← get_film_from_elastic es film_id
    match fetched with
    | none => .ok (none, r)
    | some film => do
      let r' ← put_film_to_cache r film
      .ok (some film, r')

/-- Python str.lstrip("-"): drop every leading dash. -/
def lstripDashes (s : String) : String :=
  String.mk (s.data.dropWhile (fun c => c == '-'))

/-- Python str.startswith("-"): the first character is a dash. -/
def startsWithDash (s : String) : Bool :=
  match s.data with
  | c :: _ => c == '-'
  | [] => false

/-- FilmService.list_films, with the (untouched) cache state threaded
explicitly.  The _source projection to the three summary fields is the
FilmShort construction on each hit. -/
def list_films (es : EsFilmStore) (r : Redis Film) (size : Nat) (sort : String) :
    Except Err (List FilmShort × Redis Film) := do
  let sort_field := lstripDashes sort
  let sort_order_desc := startsWithDash sort
  let hits ← es.sortedSearch sort_field sort_order_desc size
  .ok (hits.map (fun d => FilmShort.mk d.id d.title d.imdb_rating), r)

end FilmService

/-! ### Movie documents, as read by services/persons.py and cache_builder.py

There a nested role entry carries a uuid and a full_name, and category tags
live under "genres" as uuid/name objects.  A field read with
.get(field, []) is modelled as a plain list (absence coincides with []). -/

structure PersonRef where
  uuid : String
  full_name : String
deriving Repr, DecidableEq

structure GenreRef where
  uuid : String
  name : String
deriving Repr, DecidableEq

structure MovieDoc where
  genres : List GenreRef
  actors : List PersonRef
  directors : List PersonRef
  writers : List PersonRef
deriving Repr, DecidableEq

/-- models/person.py: Person(uuid, full_name, role=None). -/
structure Person where
  uuid : String
  full_name : String
  role : Option String
deriving Repr, DecidableEq

/-- The role partitions, in the iteration order used throughout persons.py
and cache_builder.py. -/
def roles : List String := ["actors", "directors", "writers"]

/-- Dispatch doc["_source"].get(role, []) on a role name. -/
def MovieDoc.roleList (d : MovieDoc) : String → List PersonRef
  | "actors" => d.actors
  | "directors" => d.directors
  | "writers" => d.writers
  | _ => []

/-- The _source: [role] projection applied by the per-role search in
search_persons: every field other than the requested role comes back
absent, i.e. []. -/
def MovieDoc.projectRole (d : MovieDoc) (role : String) : MovieDoc :=
  { genres := []
    actors := if role = "actors" then d.actors else []
    directors := if role = "directors" then d.directors else []
    writers := if role = "writers" then d.writers else [] }

/-- persons.py / cache_builder.py CACHE_TTL and scroll constants. -/
def CACHE_TTL : Nat := 300

def SCROLL_SIZE : Nat := 100

/-- Elasticsearch client as consumed by the scan and person paths.
`batches` is the sequence of responses a scroll cursor hands out (the
store contract: they partition the collection and a response past the last
batch is empty); `failAt = some k` means the k-th fetch call (0 = the
initial search) raises because the store became unreachable. -/
structure EsScanStore where
  indexExists : Bool
  batches : List (List MovieDoc)
  failAt : Option Nat
deriving Repr

/-- The whole collection, in store order. -/
def EsScanStore.collection (es : EsScanStore) : List MovieDoc :=
  es.batches.flatten

/-- The while-hits loop shared by scroll_all_movies and the inline scroll
of list_persons: consume successive batches, stopping at the first empty
one; the Bool records whether the loop completed without a fetch raising.
`n` counts the fetch calls already made. -/
def scrollGo (failAt : Option Nat) : List (List MovieDoc) → Nat → List MovieDoc × Bool
  | [], n => if failAt = some n then ([], false) else ([], true)
  | b :: rest, n =>
    if failAt = some n then ([], false)
    else if b = [] then ([], true)
    else
      let tail := scrollGo failAt rest (n + 1)
      (b ++ tail.1, tail.2)

/-- cache_builder.scroll_all_movies: the generator run.  The first
component is the sequence of documents yielded, the second is false when a
fetch raised mid-scan (the exception then propagates to the consumer).  A
NotFoundError on the initial search (the index is absent) is caught and
yields the empty sequence.  The final clear_scroll releases the cursor and
has no modelled effect. -/
def scroll_all_movies (es : EsScanStore) : List MovieDoc × Bool :=
  if es.indexExists = false then ([], true)
  else scrollGo es.failAt es.batches 0

/-- The same scan as seen by a caller that does not catch NotFoundError
(the inline scroll loop of list_persons): any fetch failure, and an absent
index, surface as raised errors. -/
def EsScanStore.scanDocs (es : EsScanStore) : Except Err (List MovieDoc) :=
  if es.indexExists = false then .error .indexNotFound
  else
    match scrollGo es.failAt es.batches 0 with
    | (docs, true) => .ok docs
    | (_, false) => .error .storeUnreachable

/-! ### Cached values on the persons/builder side

One Redis instance holds several payload shapes, distinguished by key
prefix; a constructor mismatch models a cached JSON payload of the wrong
shape (which the Python code would fail to parse into the expected model). -/

inductive RVal where
  | map (m : List (String × String))
  | person (p : Person)
  | personList (ps : List Person)
deriving Repr, DecidableEq

/-- Membership test uuid in dict, as a Bool. -/
def hasKey (m : List (String × String)) (k : String) : Bool :=
  m.any (fun e => decide (e.1 = k))

/-- The builder insertion: dict[k] = v only if k is not yet a key
(first writer wins). -/
def insertIfNew (m : List (String × String)) (k v : String) : List (String × String) :=
  if hasKey m k then m else m ++ [(k, v)]

/-- Python dict assignment dict[k] = v: an existing key keeps its original
insertion position but takes the new value; a new key is appended
(last writer wins). -/
def upsert (m : List (String × String)) (k v : String) : List (String × String) :=
  if hasKey m k then m.map (fun e => if e.1 = k then (k, v) else e)
  else m ++ [(k, v)]

/-- cache_builder.build_cache_on_startup, genre loop body for one document. -/
def addDocGenres (m : List (String × String)) (d : MovieDoc) : List (String × String) :=
  d.genres.foldl (fun m g => insertIfNew m g.uuid g.name) m

/-- cache_builder.build_cache_on_startup, person loop body for one document. -/
def addDocPersons (m : List (String × String)) (d : MovieDoc) : List (String × String) :=
  roles.foldl (fun m role =>
    (d.roleList role).foldl (fun m p => insertIfNew m p.uuid p.full_name) m) m

/-- list_persons, person loop body for one document (dict assignment). -/
def addDocPersonsUpsert (m : List (String × String)) (d : MovieDoc) : List (String × String) :=
  roles.foldl (fun m role =>
    (d.roleList role).foldl (fun m p => upsert m p.uuid p.full_name) m) m

/-- json.loads of a cached builder mapping: the stored value must be an
object of id to name. -/
def seedOfVal : Option RVal → Except Err (List (String × String))
  | none => .ok []
  | some (RVal.map m) => .ok m
  | some _ => .error .malformedPayload

/-- cache_builder.build_cache_on_startup.  The cache state is returned in
both outcomes; a raised exception leaves it as it was at that point.  The
counts returned on success are the sizes of the two mappings. -/
def build_cache_on_startup (es : EsScanStore) (r : Redis RVal) :
    Redis RVal × Except Err (Nat × Nat) :=
  match r.get? "genres_cache" with
  | .error e => (r, .error e)
  | .ok graw =>
    match r.get? "persons_cache" with
    | .error e => (r, .error e)
    | .ok praw =>
      match seedOfVal graw, seedOfVal praw with
      | .error e, _ => (r, .error e)
      | .ok _, .error e => (r, .error e)
      | .ok genres_seed, .ok persons_seed =>
        let scan := scroll_all_movies es
        let genres_cache := scan.1.foldl addDocGenres genres_seed
        let persons_cache := scan.1.foldl addDocPersons persons_seed
        if scan.2 then
          match r.set "genres_cache" (RVal.map genres_cache) none with
          | .error e => (r, .error e)
          | .ok r1 =>
            match r1.set "persons_cache" (RVal.map persons_cache) none with
            | .error e => (r1, .error e)
            | .ok r2 => (r2, .ok (genres_cache.length, persons_cache.length))
        else (r, .error .storeUnreachable)

namespace PersonService

/-- Cache key of a listing page. -/
def pageKey (page size : Nat) : String :=
  "persons:page=" ++ toString page ++ ":size=" ++ toString size

/-- Cache key of a person lookup. -/
def personKey (person_id : String) : String := "person:" ++ person_id

/-- Cache key of a person search. -/
def searchKey (query_str : String) : String := "search_persons:" ++ query_str

/-- PersonService.list_persons.  On a miss it runs its own scroll loop
(equivalent to scrollGo, but without catching NotFoundError), accumulates
uuid to full_name with dict assignment across all roles of all documents,
slices by [(page-1)*size, (page-1)*size+size), caches the slice and
returns it as Person values (no role).  Python would index with a negative
offset for page = 0; page ≥ 1 is assumed wherever the slice is discussed. -/
def list_persons (es : EsScanStore) (r : Redis RVal) (size page : Nat) :
    Except Err (List Person × Redis RVal) := do
  let cached ← r.get? (pageKey page size)
  match cached with
  | some (RVal.map m) => .ok (m.map (fun kv => Person.mk kv.1 kv.2 none), r)
  | some _ => .error .malformedPayload
  | none => do
    let docs ← es.scanDocs
    let persons_dict := docs.foldl addDocPersonsUpsert []
    let start := (page - 1) * size
    let limited_persons := (persons_dict.drop start).take size
    let r' ← r.set (pageKey page size) (RVal.map limited_persons) (some CACHE_TTL)
    .ok (limited_persons.map (fun kv => Person.mk kv.1 kv.2 none), r')

/-- The ES query of get_person_by_id: a bool/should of nested term queries
on the uuid across the three roles. -/
def MovieDoc.hasPersonId (d : MovieDoc) (pid : String) : Bool :=
  roles.any (fun role => (d.roleList role).any (fun p => decide (p.uuid = pid)))

/-- The role-list scan of get_person_by_id over the first hit: the first
entry with the requested uuid, turned into Person(**p) — whose role field
is None, since the nested entry has only uuid and full_name. -/
def firstRoleHit (d : MovieDoc) (pid : String) : Option Person :=
  ((roles.map d.roleList).flatten.find? (fun p => decide (p.uuid = pid))).map
    (fun p => Person.mk p.uuid p.full_name none)

/-- PersonService.get_person_by_id. -/
def get_person_by_id (es : EsScanStore) (r : Redis RVal) (person_id : String) :
    Except Err (Option Person × Redis RVal) := do
  let cached ← r.get? (personKey person_id)
  match cached with
  | some (RVal.person p) => .ok (some p, r)
  | some _ => .error .malformedPayload
  | none =>
    if es.indexExists = false then .error .indexNotFound
    else
      match (es.collection.filter (fun d => MovieDoc.hasPersonId d person_id)).take 1 with
      | [] => .ok (none, r)
      | d :: _ =>
        match firstRoleHit d person_id with
        | some person => do
          let r' ← r.set (personKey person_id) (RVal.person person) (some CACHE_TTL)
          .ok (some person, r')
        | none => .ok (none, r)

/-- Whitespace tokenization (the analyzer model): split a string on
single spaces. -/
def splitOnSpaceAux : List Char → List Char → List String
  | [], acc => [String.mk acc.reverse]
  | c :: cs, acc =>
    if c = ' ' then String.mk acc.reverse :: splitOnSpaceAux cs []
    else splitOnSpaceAux cs (c :: acc)

/-- Tokens of a full name or query string. -/
def tokens (s : String) : List String := splitOnSpaceAux s.data []

/-- The match_phrase candidate test on a full name: with the standard
analyzer, the query tokens must occur as a contiguous run of the name
tokens. -/
def phraseMatch (query_str full_name : String) : Bool :=
  decide (tokens query_str <:+: tokens full_name)

/-- The hit list search_persons accumulates: for each role in order, the
documents whose role partition phrase-matches the query (in store order,
capped at 50), projected to that role by the _source filter. -/
def searchHits (es : EsScanStore) (query_str : String) : List MovieDoc :=
  (roles.map (fun role =>
    ((es.collection.filter
        (fun d => (d.roleList role).any (fun p => phraseMatch query_str p.full_name))).take 50).map
      (fun d => d.projectRole role))).flatten

/-- The occurrence sequence the collection loop of search_persons walks
over one hit: each role in order, each entry of that role paired with the
role name. -/
def hitOccs (d : MovieDoc) : List (PersonRef × String) :=
  (roles.map (fun role => (d.roleList role).map (fun p => (p, role)))).flatten

/-- All occurrences walked by the collection loop, across the hit list. -/
def searchOccs (es : EsScanStore) (query_str : String) : List (PersonRef × String) :=
  ((searchHits es query_str).map hitOccs).flatten

/-- Python role[:-1]: "actors" becomes "actor", and so on. -/
def roleLabel (role : String) : String := String.mk role.data.dropLast

/-- The collection loop of search_persons: a seen-uuid set threads through
the occurrences; an occurrence is accepted when its uuid is unseen and its
full name equals the query exactly, and only then is its uuid marked seen. -/
def searchLoop (query_str : String) :
    List (PersonRef × String) → List String → List Person
  | [], _ => []
  | (p, role) :: rest, seen =>
    if p.uuid ∉ seen ∧ p.full_name = query_str then
      Person.mk p.uuid p.full_name (some (roleLabel role)) ::
        searchLoop query_str rest (p.uuid :: seen)
    else searchLoop query_str rest seen

/-- PersonService.search_persons. -/
def search_persons (es : EsScanStore) (r : Redis RVal) (query_str : String) :
    Except Err (List Person × Redis RVal) := do
  let cached ← r.get? (searchKey query_str)
  match cached with
  | some (RVal.personList ps) => .ok (ps, r)
  | some _ => .error .malformedPayload
  | none =>
    if es.indexExists = false then .error .indexNotFound
    else do
      let result := searchLoop query_str (searchOccs es query_str) []
      let r' ← r.set (searchKey query_str) (RVal.personList result) (some CACHE_TTL)
      .ok (result, r')

end PersonService

/-! ### Specification-side definitions

These restate, independently of the loop/state shapes of the code above,
what the mappings and result sets are supposed to contain; the theorems
connect the two. -/

/-- Value of a key in an association list (first entry wins). -/
def assocFind (m : List (String × String)) (k : String) : Option String :=
  (m.find? (fun e => decide (e.1 = k))).map (fun e => e.2)

/-- First-occurrence-wins deduplication by a string key: an element is
kept exactly when its key has not occurred earlier; `seen` carries the
keys already encountered. -/
def dedupByKeyGo {α : Type} (key : α → String) : List α → List String → List α
  | [], _ => []
  | x :: xs, seen =>
    if key x ∈ seen then dedupByKeyGo key xs seen
    else x :: dedupByKeyGo key xs (key x :: seen)

/-- First-occurrence-wins deduplication by a string key. -/
def dedupByKey {α : Type} (key : α → String) (l : List α) : List α :=
  dedupByKeyGo key l []

/-- The genre-tag occurrences of one document, in iteration order. -/
def docGenreOccs (d : MovieDoc) : List (String × String) :=
  d.genres.map (fun g => (g.uuid, g.name))

/-- The person occurrences of one document across the three roles, in
iteration order. -/
def docPersonOccs (d : MovieDoc) : List (String × String) :=
  (roles.map (fun role => (d.roleList role).map (fun p => (p.uuid, p.full_name)))).flatten

/-- All genre-tag occurrences of a document sequence. -/
def allGenreOccs (docs : List MovieDoc) : List (String × String) :=
  (docs.map docGenreOccs).flatten

/-- All person occurrences of a document sequence. -/
def allPersonOccs (docs : List MovieDoc) : List (String × String) :=
  (docs.map docPersonOccs).flatten

/-- The Person built from an accepted search occurrence. -/
def mkSearchPerson (o : PersonRef × String) : Person :=
  Person.mk o.1.uuid o.1.full_name (some (PersonService.roleLabel o.2))

/-- Specification-side search result: the candidate occurrences filtered
to exact name equality, deduplicated by uuid with the first occurrence
winning, each labeled with its winning role. -/
def specSearch (es : EsScanStore) (q : String) : List Person :=
  (dedupByKey (fun o => o.1.uuid)
    ((PersonService.searchOccs es q).filter (fun o => decide (o.1.full_name = q)))).map
    mkSearchPerson

/-- Shape test for a cached builder mapping: absent, or a map value. -/
def isMapVal : Option RVal → Bool
  | none => true
  | some (RVal.map _) => true
  | _ => false

/-! ### Concrete fixtures -/

def fdocA : FilmDoc :=
  { id := "f1", title := "Alpha", description := none, imdb_rating := some 5,
    genre := some ["Drama"], actors := some [⟨"Ann"⟩], writers := none,
    directors := some [] }

def fdocB : FilmDoc :=
  { id := "f2", title := "Beta", description := some "b", imdb_rating := some 9,
    genre := none, actors := none, writers := some [⟨"Wes"⟩], directors := none }

def esFilms : EsFilmStore :=
  { down := false, docs := [fdocA, fdocB],
    fieldKey := fun f d => if f = "imdb_rating" then d.imdb_rating.getD 0 else 0 }

def emptyFilmCache : Redis Film := ⟨false, []⟩

def downFilmCache : Redis Film := ⟨true, []⟩

def pAlice : PersonRef := ⟨"p1", "Alice"⟩

def pAliceSmith : PersonRef := ⟨"p2", "Alice Smith"⟩

def pBob : PersonRef := ⟨"p3", "Bob"⟩

def mdoc1 : MovieDoc :=
  { genres := [⟨"g1", "Drama"⟩], actors := [pAlice, pAliceSmith],
    directors := [pBob], writers := [] }

def mdoc2 : MovieDoc :=
  { genres := [⟨"g1", "DramaRenamed"⟩, ⟨"g2", "Comedy"⟩], actors := [pAlice],
    directors := [], writers := [⟨"p3", "Bobby"⟩] }

def esScan : EsScanStore :=
  { indexExists := true, batches := [[mdoc1], [mdoc2]], failAt := none }

def esScanFail : EsScanStore :=
  { indexExists := true, batches := [[mdoc1], [mdoc2]], failAt := some 1 }

def esScanNoIndex : EsScanStore :=
  { indexExists := false, batches := [], failAt := none }

def emptyRV : Redis RVal := ⟨false, []⟩

def downRV : Redis RVal := ⟨true, []⟩

/-- Decidable equality of Except results, used to evaluate concrete runs. -/
instance exceptDecidableEq {ε α : Type} [DecidableEq ε] [DecidableEq α] :
    DecidableEq (Except ε α) := fun a b =>
  match a, b with
  | .error e₁, .error e₂ =>
    if h : e₁ = e₂ then isTrue (by rw [h]) else isFalse (by intro hc; cases hc; exact h rfl)
  | .error _, .ok _ => isFalse (by intro hc; cases hc)
  | .ok _, .error _ => isFalse (by intro hc; cases hc)
  | .ok a₁, .ok a₂ =>
    if h : a₁ = a₂ then isTrue (by rw [h]) else isFalse (by intro hc; cases hc; exact h rfl)

/-! ### Helper lemmas -/

theorem except_bind_ok {ε α β : Type} (a : α) (f : α → Except ε β) :
    (Except.ok a : Except ε α) >>= f = f a := rfl

theorem except_bind_error {ε α β : Type} (e : ε) (f : α → Except ε β) :
    (Except.error e : Except ε α) >>= f = .error e := rfl

theorem redis_get?_up {α : Type} (r : Redis α) (k : String) (h : r.down = false) :
    r.get? k = .ok (r.read k) := by
  simp [Redis.get?, h]

theorem redis_set_up {α : Type} (r : Redis α) (k : String) (v : α) (ttl : Option Nat)
    (h : r.down = false) : r.set k v ttl = .ok (r.store k v ttl) := by
  simp [Redis.set, h]

theorem redis_store_down {α : Type} (r : Redis α) (k : String) (v : α) (ttl : Option Nat) :
    (r.store k v ttl).down = r.down := rfl

theorem find?_filter_comm {α : Type} (p q : α → Bool) (l : List α) :
    (l.filter q).find? p = l.find? (fun a => q a && p a) := by
  induction l with
  | nil => rfl
  | cons a l ih =>
    cases hq : q a
    · simp [List.filter_cons, hq, ih]
    · cases hp : p a
      · rw [List.filter_cons]
        simp only [hq, if_true]
        rw [List.find?_cons_of_neg _ (by simp [hp]), List.find?_cons_of_neg _ (by simp [hq, hp])]
        exact ih
      · rw [List.filter_cons]
        simp only [hq, if_true]
        rw [List.find?_cons_of_pos _ (by simp [hp]), List.find?_cons_of_pos _ (by simp [hq, hp])]

theorem redis_read_store_same {α : Type} (r : Redis α) (k : String) (v : α)
    (ttl : Option Nat) : (r.store k v ttl).read k = some v := by
  simp [Redis.read, Redis.store, List.find?_cons_of_pos]

theorem redis_read_store_other {α : Type} (r : Redis α) (k k' : String) (v : α)
    (ttl : Option Nat) (hne : k' ≠ k) : (r.store k v ttl).read k' = r.read k' := by
  simp only [Redis.read, Redis.store]
  rw [List.find?_cons_of_neg _ (by simpa using fun h : k = k' => hne h.symm), find?_filter_comm]
  have hfun : (fun e : String × α × Option Nat => decide (e.1 ≠ k) && decide (e.1 = k')) =
      (fun e : String × α × Option Nat => decide (e.1 = k')) := by
    funext e
    by_cases h : e.1 = k'
    · simp [h, hne]
    · simp [h]
  rw [hfun]

theorem scrollGo_complete (batches : List (List MovieDoc))
    (hb : ∀ b ∈ batches, b ≠ []) :
    ∀ n, scrollGo none batches n = (batches.flatten, true) := by
  induction batches with
  | nil => intro n; simp [scrollGo]
  | cons b rest ih =>
    intro n
    have hb1 : b ≠ [] := hb b (by simp)
    have hbr : ∀ x ∈ rest, x ≠ [] := fun x hx => hb x (by simp [hx])
    simp [scrollGo, hb1, ih hbr (n + 1)]

theorem scrollGo_fail :
    ∀ (batches : List (List MovieDoc)) (n k : Nat), (∀ b ∈ batches, b ≠ []) →
      n ≤ k → k ≤ n + batches.length → (scrollGo (some k) batches n).2 = false := by
  intro batches
  induction batches with
  | nil =>
    intro n k _ h1 h2
    have hk : k = n := by simpa using le_antisymm h2 h1
    simp [scrollGo, hk]
  | cons b rest ih =>
    intro n k hb h1 h2
    by_cases hkn : k = n
    · simp [scrollGo, hkn]
    · have hb1 : b ≠ [] := hb b (by simp)
      have h1' : n + 1 ≤ k := Nat.lt_of_le_of_ne h1 (Ne.symm hkn)
      have h2' : k ≤ (n + 1) + rest.length := by
        simpa [Nat.add_comm, Nat.add_left_comm, Nat.add_assoc] using h2
      have htail := ih (n + 1) k (fun x hx => hb x (by simp [hx])) h1' h2'
      simp [scrollGo, hkn, hb1, htail]

theorem addDocGenres_eq_foldl :
    addDocGenres = fun m d =>
      (docGenreOccs d).foldl (fun m o => insertIfNew m o.1 o.2) m := by
  funext m d
  simp [addDocGenres, docGenreOccs, List.foldl_map]

theorem addDocPersons_eq_foldl :
    addDocPersons = fun m d =>
      (docPersonOccs d).foldl (fun m o => insertIfNew m o.1 o.2) m := by
  funext m d
  simp [addDocPersons, docPersonOccs, List.foldl_flatten, List.foldl_map]

theorem addDocPersonsUpsert_eq_foldl :
    addDocPersonsUpsert = fun m d =>
      (docPersonOccs d).foldl (fun m o => upsert m o.1 o.2) m := by
  funext m d
  simp [addDocPersonsUpsert, docPersonOccs, List.foldl_flatten, List.foldl_map]

theorem foldl_addDocGenres (docs : List MovieDoc) (s : List (String × String)) :
    docs.foldl addDocGenres s =
      (allGenreOccs docs).foldl (fun m o => insertIfNew m o.1 o.2) s := by
  rw [addDocGenres_eq_foldl, allGenreOccs, List.foldl_flatten, List.foldl_map]

theorem foldl_addDocPersons (docs : List MovieDoc) (s : List (String × String)) :
    docs.foldl addDocPersons s =
      (allPersonOccs docs).foldl (fun m o => insertIfNew m o.1 o.2) s := by
  rw [addDocPersons_eq_foldl, allPersonOccs, List.foldl_flatten, List.foldl_map]

theorem foldl_addDocPersonsUpsert (docs : List MovieDoc) (s : List (String × String)) :
    docs.foldl addDocPersonsUpsert s =
      (allPersonOccs docs).foldl (fun m o => upsert m o.1 o.2) s := by
  rw [addDocPersonsUpsert_eq_foldl, allPersonOccs, List.foldl_flatten, List.foldl_map]

theorem hasKey_eq_isSome (m : List (String × String)) (k : String) :
    hasKey m k = (m.find? (fun e => decide (e.1 = k))).isSome := by
  rw [Bool.eq_iff_iff]
  simp [hasKey, List.any_eq_true, List.find?_isSome]

theorem assocFind_nil (k : String) : assocFind [] k = none := rfl

theorem assocFind_insertIfNew (m : List (String × String)) (k v k' : String) :
    assocFind (insertIfNew m k v) k' =
      (assocFind m k').or (if k = k' then some v else none) := by
  rw [insertIfNew]
  cases h : hasKey m k
  · rw [if_neg (by simp [h])]
    simp only [assocFind, List.find?_append]
    cases hm : m.find? (fun e => decide (e.1 = k')) with
    | some e => simp [Option.or]
    | none =>
      by_cases hk : k = k'
      · subst hk
        simp [List.find?, Option.or]
      · simp [List.find?, hk, Option.or]
  · rw [if_pos (by simp [h])]
    by_cases hk : k = k'
    · subst hk
      have hs : (m.find? (fun e => decide (e.1 = k))).isSome := by
        rw [← hasKey_eq_isSome]; exact h
      obtain ⟨e, he⟩ := Option.isSome_iff_exists.mp hs
      simp [assocFind, he, Option.or]
    · simp [hk, Option.or_none]

theorem assocFind_foldl_insertIfNew (occs : List (String × String)) :
    ∀ (s : List (String × String)) (k : String),
      assocFind (occs.foldl (fun m o => insertIfNew m o.1 o.2) s) k =
        (assocFind s k).or ((occs.find? (fun o => decide (o.1 = k))).map Prod.snd) := by
  induction occs with
  | nil => intro s k; simp [Option.or_none]
  | cons o rest ih =>
    intro s k
    rw [List.foldl_cons, ih, assocFind_insertIfNew, Option.or_assoc]
    by_cases h : o.1 = k
    · rw [List.find?_cons_of_pos _ (by simp [h]), if_pos h]
      cases rest.find? (fun o => decide (o.1 = k)) <;> simp [Option.or]
    · rw [List.find?_cons_of_neg _ (by simp [h]), if_neg h, Option.none_or]

theorem mem_keys_insertIfNew (m : List (String × String)) (k v k' : String) :
    k' ∈ (insertIfNew m k v).map Prod.fst ↔ k' ∈ m.map Prod.fst ∨ k' = k := by
  rw [insertIfNew]
  cases h : hasKey m k
  · rw [if_neg (by simp [h])]
    simp
  · rw [if_pos (by simp [h])]
    have hk : k ∈ m.map Prod.fst := by
      obtain ⟨e, hem, hpe⟩ := List.any_eq_true.mp h
      exact List.mem_map.mpr ⟨e, hem, of_decide_eq_true hpe⟩
    constructor
    · exact Or.inl
    · rintro (h' | rfl)
      · exact h'
      · exact hk

theorem mem_keys_foldl_insertIfNew (occs : List (String × String)) :
    ∀ (s : List (String × String)) (k : String),
      k ∈ ((occs.foldl (fun m o => insertIfNew m o.1 o.2) s).map Prod.fst) ↔
        k ∈ s.map Prod.fst ∨ k ∈ occs.map Prod.fst := by
  induction occs with
  | nil => intro s k; simp
  | cons o rest ih =>
    intro s k
    rw [List.foldl_cons, ih, mem_keys_insertIfNew]
    simp only [List.map_cons, List.mem_cons]
    tauto

theorem find?_mapReplace_same (m : List (String × String)) (k v : String)
    (h : hasKey m k = true) :
    (m.map (fun e => if e.1 = k then (k, v) else e)).find? (fun e => decide (e.1 = k)) =
      some (k, v) := by
  induction m with
  | nil => simp [hasKey] at h
  | cons e rest ih =>
    by_cases he : e.1 = k
    · simp only [List.map_cons, if_pos he]
      exact List.find?_cons_of_pos _ (by simp)
    · have h' : hasKey rest k = true := by
        simpa [hasKey, List.any_cons, he] using h
      simp only [List.map_cons, if_neg he]
      rw [List.find?_cons_of_neg _ (by simp [he])]
      exact ih h'

theorem find?_mapReplace_other (m : List (String × String)) (k v k' : String)
    (hk : k ≠ k') :
    (m.map (fun e => if e.1 = k then (k, v) else e)).find? (fun e => decide (e.1 = k')) =
      m.find? (fun e => decide (e.1 = k')) := by
  induction m with
  | nil => rfl
  | cons e rest ih =>
    by_cases he : e.1 = k
    · simp only [List.map_cons, if_pos he]
      rw [List.find?_cons_of_neg _ (by simp [hk]),
        List.find?_cons_of_neg _ (by simp [he, hk])]
      exact ih
    · simp only [List.map_cons, if_neg he]
      by_cases he' : e.1 = k'
      · rw [List.find?_cons_of_pos _ (by simp [he']),
          List.find?_cons_of_pos _ (by simp [he'])]
      · rw [List.find?_cons_of_neg _ (by simp [he']),
          List.find?_cons_of_neg _ (by simp [he'])]
        exact ih

theorem assocFind_upsert (m : List (String × String)) (k v k' : String) :
    assocFind (upsert m k v) k' = if k = k' then some v else assocFind m k' := by
  rw [upsert]
  cases h : hasKey m k
  · rw [if_neg (by simp [h])]
    by_cases hk : k = k'
    · subst hk
      have hnone : m.find? (fun e => decide (e.1 = k)) = none := by
        cases hf : m.find? (fun e => decide (e.1 = k)) with
        | none => rfl
        | some e =>
          exfalso
          have : hasKey m k = true := by rw [hasKey_eq_isSome, hf]; rfl
          simp [this] at h
      simp [assocFind, List.find?_append, hnone, List.find?]
    · simp only [assocFind, List.find?_append, if_neg hk]
      rw [List.find?_cons_of_neg _ (by simp [hk])]
      simp [Option.or_none]
  · rw [if_pos (by simp [h])]
    by_cases hk : k = k'
    · subst hk
      simp [assocFind, find?_mapReplace_same m k v h]
    · simp [assocFind, find?_mapReplace_other m k v k' hk, hk]

theorem assocFind_foldl_upsert (occs : List (String × String)) :
    ∀ (s : List (String × String)) (k : String),
      assocFind (occs.foldl (fun m o => upsert m o.1 o.2) s) k =
        ((occs.reverse.find? (fun o => decide (o.1 = k))).map Prod.snd).or (assocFind s k) := by
  induction occs with
  | nil => intro s k; simp
  | cons o rest ih =>
    intro s k
    rw [List.foldl_cons, ih, List.reverse_cons, List.find?_append, assocFind_upsert]
    by_cases h : o.1 = k
    · cases hf : rest.reverse.find? (fun o => decide (o.1 = k)) with
      | some e => simp [List.find?, Option.or]
      | none => simp [List.find?, h, Option.or]
    · cases hf : rest.reverse.find? (fun o => decide (o.1 = k)) with
      | some e => simp [List.find?, Option.or]
      | none => simp [List.find?, h, Option.or]

theorem mem_of_mem_dedupByKeyGo {α : Type} (key : α → String) :
    ∀ (l : List α) (seen : List String) (y : α),
      y ∈ dedupByKeyGo key l seen → y ∈ l := by
  intro l
  induction l with
  | nil => intro seen y h; simp [dedupByKeyGo] at h
  | cons x xs ih =>
    intro seen y h
    rw [dedupByKeyGo] at h
    by_cases hs : key x ∈ seen
    · rw [if_pos hs] at h
      exact List.mem_cons_of_mem _ (ih _ _ h)
    · rw [if_neg hs] at h
      rcases List.mem_cons.mp h with h1 | h2
      · simp [h1]
      · exact List.mem_cons_of_mem _ (ih _ _ h2)

theorem keys_dedupByKeyGo_not_seen {α : Type} (key : α → String) :
    ∀ (l : List α) (seen : List String) (k : String),
      k ∈ (dedupByKeyGo key l seen).map key → k ∉ seen := by
  intro l
  induction l with
  | nil => intro seen k h; simp [dedupByKeyGo] at h
  | cons x xs ih =>
    intro seen k h
    rw [dedupByKeyGo] at h
    by_cases hs : key x ∈ seen
    · rw [if_pos hs] at h
      exact ih _ _ h
    · rw [if_neg hs] at h
      rcases List.mem_cons.mp h with h1 | h2
      · rw [h1]; exact hs
      · have := ih _ _ h2
        intro hk
        exact this (List.mem_cons_of_mem _ hk)

theorem nodup_keys_dedupByKeyGo {α : Type} (key : α → String) :
    ∀ (l : List α) (seen : List String), ((dedupByKeyGo key l seen).map key).Nodup := by
  intro l
  induction l with
  | nil => intro seen; simp [dedupByKeyGo]
  | cons x xs ih =>
    intro seen
    rw [dedupByKeyGo]
    by_cases hs : key x ∈ seen
    · rw [if_pos hs]; exact ih seen
    · rw [if_neg hs, List.map_cons, List.nodup_cons]
      refine ⟨?_, ih _⟩
      intro hmem
      exact keys_dedupByKeyGo_not_seen key xs (key x :: seen) (key x) hmem
        (List.mem_cons_self _ _)

theorem mem_of_mem_dedupByKey {α : Type} (key : α → String) (l : List α) (y : α)
    (h : y ∈ dedupByKey key l) : y ∈ l :=
  mem_of_mem_dedupByKeyGo key l [] y h

theorem nodup_keys_dedupByKey {α : Type} (key : α → String) (l : List α) :
    ((dedupByKey key l).map key).Nodup :=
  nodup_keys_dedupByKeyGo key l []

theorem searchLoop_eq_dedup (q : String) :
    ∀ (occs : List (PersonRef × String)) (seen : List String),
      PersonService.searchLoop q occs seen =
        (dedupByKeyGo (fun o => o.1.uuid)
          (occs.filter (fun o => decide (o.1.full_name = q))) seen).map
          mkSearchPerson := by
  intro occs
  induction occs with
  | nil => intro seen; simp [PersonService.searchLoop, dedupByKeyGo]
  | cons o rest ih =>
    intro seen
    obtain ⟨p, role⟩ := o
    by_cases hq : p.full_name = q
    · rw [List.filter_cons, if_pos (by simp [hq])]
      by_cases hs : p.uuid ∈ seen
      · rw [PersonService.searchLoop, if_neg (by intro hc; exact hc.1 hs),
          dedupByKeyGo, if_pos hs]
        exact ih seen
      · rw [PersonService.searchLoop, if_pos ⟨hs, hq⟩, dedupByKeyGo, if_neg hs,
          List.map_cons, ih]
        simp [mkSearchPerson, hq]
    · rw [List.filter_cons, if_neg (by simp [hq]),
        PersonService.searchLoop, if_neg (by intro hc; exact hq hc.2)]
      exact ih seen

theorem filter_take_one_some {α : Type} (p : α → Bool) (l : List α) (d : α)
    (h : l.find? p = some d) : (l.filter p).take 1 = [d] := by
  induction l with
  | nil => simp [List.find?] at h
  | cons a l ih =>
    cases hpa : p a
    · rw [List.find?_cons_of_neg _ (by simp [hpa])] at h
      rw [List.filter_cons, if_neg (by simp [hpa])]
      exact ih h
    · rw [List.find?_cons_of_pos _ hpa] at h
      cases h
      rw [List.filter_cons, if_pos (by simp [hpa])]
      rfl

theorem filter_take_one_none {α : Type} (p : α → Bool) (l : List α)
    (h : l.find? p = none) : (l.filter p).take 1 = [] := by
  have : l.filter p = [] :=
    List.filter_eq_nil_iff.mpr (List.find?_eq_none.mp h)
  rw [this]
  rfl

theorem searchLoop_closed (es : EsScanStore) (q : String) :
    PersonService.searchLoop q (PersonService.searchOccs es q) [] = specSearch es q := by
  rw [searchLoop_eq_dedup]
  rfl

theorem search_persons_miss (es : EsScanStore) (r : Redis RVal) (q : String)
    (hr : r.down = false) (hmiss : r.read (PersonService.searchKey q) = none)
    (hex : es.indexExists = true) :
    PersonService.search_persons es r q =
      .ok (specSearch es q,
        r.store (PersonService.searchKey q) (RVal.personList (specSearch es q))
          (some CACHE_TTL)) := by
  simp [PersonService.search_persons, Redis.get?, Redis.set, hr, hmiss, hex,
    searchLoop_closed]
  try rfl

/-! ### Claim theorems -/

/-- C1: FilmService.get_by_id follows the cache-aside order: a cache entry
for the id is deserialized and returned as is; on a miss, a document held
by the store is returned flattened (role lists reduced to name lists, a
missing tag list replaced by []) and written to the cache under the id
with the fixed 5-minute TTL; a store not-found returns none and performs
no cache write. -/
theorem C1_entity_reader_get_by_id (r : Redis Film) (es : EsFilmStore) (id : String)
    (hr : r.down = false) (hes : es.down = false) :
    (∀ f, r.read id = some f → FilmService.get_by_id r es id = .ok (some f, r)) ∧
    (∀ d, r.read id = none → es.docs.find? (fun d => decide (d.id = id)) = some d →
        FilmService.get_by_id r es id =
          .ok (some (film_from_doc d),
            r.store id (film_from_doc d) (some FILM_CACHE_EXPIRE_IN_SECONDS))) ∧
    (r.read id = none → es.docs.find? (fun d => decide (d.id = id)) = none →
        FilmService.get_by_id r es id = .ok (none, r)) ∧
    FILM_CACHE_EXPIRE_IN_SECONDS = 300 := by
  refine ⟨?_, ?_, ?_, rfl⟩
  · intro f hf
    simp [FilmService.get_by_id, FilmService.film_from_cache, Redis.get?, hr, hf]
    rfl
  · intro d hmiss hd
    have hps := List.find?_some hd
    have hid : d.id = id := by simpa using hps
    have hkey : (film_from_doc d).id = id := hid
    simp [FilmService.get_by_id, FilmService.film_from_cache,
      FilmService.get_film_from_elastic, FilmService.put_film_to_cache,
      EsFilmStore.getDoc, Redis.get?, Redis.set, hr, hes, hmiss, hd, hkey]
    rw [← hkey]
    try rfl
  · intro hmiss hd
    simp [FilmService.get_by_id, FilmService.film_from_cache,
      FilmService.get_film_from_elastic, EsFilmStore.getDoc,
      Redis.get?, hr, hes, hmiss, hd]
    try rfl

/-- C1 witness: concrete cold-cache hit on the store, evaluated. -/
theorem C1_witness :
    emptyFilmCache.down = false ∧ esFilms.down = false ∧
    emptyFilmCache.read "f1" = none ∧
    esFilms.docs.find? (fun d => decide (d.id = "f1")) = some fdocA ∧
    FilmService.get_by_id emptyFilmCache esFilms "f1" =
      .ok (some (film_from_doc fdocA),
        emptyFilmCache.store "f1" (film_from_doc fdocA) (some FILM_CACHE_EXPIRE_IN_SECONDS)) :=
  ⟨rfl, rfl, rfl, rfl,
    (C1_entity_reader_get_by_id emptyFilmCache esFilms "f1" rfl rfl).2.1 fdocA rfl rfl⟩

/-- C3: the collection scanner yields exactly the collection (the
concatenation of the cursor batches) when every batch is non-empty and no
fetch fails, and yields the empty sequence without raising when the
initial open reports the index absent.  Termination is by construction:
the scan is a total function of the finite batch list, consuming one batch
per step and stopping at the first empty one. -/
theorem C3_scroll_all_movies_complete (es : EsScanStore)
    (hb : ∀ b ∈ es.batches, b ≠ []) (hfail : es.failAt = none) :
    (es.indexExists = true → scroll_all_movies es = (es.collection, true)) ∧
    (es.indexExists = false → scroll_all_movies es = ([], true)) := by
  constructor
  · intro hex
    rw [scroll_all_movies, if_neg (by simp [hex]), hfail]
    exact scrollGo_complete es.batches hb 0
  · intro hex
    rw [scroll_all_movies, if_pos hex]

/-- C3 witness: the two-batch fixture scans to its full collection. -/
theorem C3_witness :
    (∀ b ∈ esScan.batches, b ≠ []) ∧ esScan.failAt = none ∧
    scroll_all_movies esScan = ([mdoc1, mdoc2], true) :=
  ⟨by decide, rfl, by
    have h := (C3_scroll_all_movies_complete esScan (by decide) rfl).1 rfl
    exact h.trans (by decide)⟩

/-- C7 counterexample: with the cache unreachable and the store holding
the document, the read fails with the infrastructure error instead of
degrading to a store fetch. -/
theorem C7_counterexample_cache_failure_propagates :
    FilmService.get_by_id downFilmCache esFilms "f1" = .error .cacheUnreachable ∧
    esFilms.docs.find? (fun d => decide (d.id = "f1")) = some fdocA :=
  ⟨rfl, rfl⟩

/-- C7 amended: a failure on the cache path fails the read.  An
unreachable cache makes every cached reader raise the infrastructure
error, and a malformed cached payload raises instead of being treated as a
miss. -/
theorem C7_cache_failure_amended (rf : Redis Film) (rp : Redis RVal)
    (es : EsFilmStore) (esp : EsScanStore) (id pid q : String) (page size : Nat)
    (hf : rf.down = true) (hp : rp.down = true) :
    FilmService.get_by_id rf es id = .error .cacheUnreachable ∧
    PersonService.list_persons esp rp size page = .error .cacheUnreachable ∧
    PersonService.get_person_by_id esp rp pid = .error .cacheUnreachable ∧
    PersonService.search_persons esp rp q = .error .cacheUnreachable ∧
    (∀ (rm : Redis RVal) (m : List (String × String)), rm.down = false →
        rm.read (PersonService.personKey pid) = some (RVal.map m) →
        PersonService.get_person_by_id esp rm pid = .error .malformedPayload) := by
  refine ⟨?_, ?_, ?_, ?_, ?_⟩
  · simp [FilmService.get_by_id, FilmService.film_from_cache, Redis.get?, hf]
    try rfl
  · simp [PersonService.list_persons, Redis.get?, hp]
    try rfl
  · simp [PersonService.get_person_by_id, Redis.get?, hp]
    try rfl
  · simp [PersonService.search_persons, Redis.get?, hp]
    try rfl
  · intro rm m hdown hread
    simp [PersonService.get_person_by_id, Redis.get?, hdown, hread]
    try rfl

/-- C7 witness: the amended statement at a concrete down cache. -/
theorem C7_witness :
    downFilmCache.down = true ∧ downRV.down = true ∧
    FilmService.get_by_id downFilmCache esFilms "f1" = .error .cacheUnreachable :=
  ⟨rfl, rfl,
    (C7_cache_failure_amended downFilmCache downRV esFilms esScan "f1" "p" "q" 1 1
      rfl rfl).1⟩

/-- C9: FilmService.list_films queries the store sorted on the sort
specification with its leading dashes stripped, descending exactly when
the specification starts with a dash, projects each hit to the three
summary fields, returns at most size hits in store-sorted order, and never
touches the cache (it behaves identically for every cache state, reachable
or not). -/
theorem C9_listing_reader_sorted (es : EsFilmStore) (size : Nat) (sortSpec : String)
    (hes : es.down = false) :
    (∀ r : Redis Film, FilmService.list_films es r size sortSpec =
        .ok ((es.sortedDocs (FilmService.lstripDashes sortSpec)
                (FilmService.startsWithDash sortSpec) size).map
              (fun d => FilmShort.mk d.id d.title d.imdb_rating), r)) ∧
    (es.sortedDocs (FilmService.lstripDashes sortSpec)
        (FilmService.startsWithDash sortSpec) size).length ≤ size ∧
    ((es.sortedDocs (FilmService.lstripDashes sortSpec) true size).map
        (es.fieldKey (FilmService.lstripDashes sortSpec))).Sorted (fun a b => b ≤ a) ∧
    ((es.sortedDocs (FilmService.lstripDashes sortSpec) false size).map
        (es.fieldKey (FilmService.lstripDashes sortSpec))).Sorted (fun a b => a ≤ b) := by
  refine ⟨?_, ?_, ?_, ?_⟩
  · intro r
    simp [FilmService.list_films, EsFilmStore.sortedSearch, hes]
    try rfl
  · exact List.length_take_le _ _
  · have hs : List.Sorted (descRel (es.fieldKey (FilmService.lstripDashes sortSpec)))
        (List.insertionSort (descRel (es.fieldKey (FilmService.lstripDashes sortSpec)))
          es.docs) := by
      haveI : IsTotal FilmDoc
          (descRel (es.fieldKey (FilmService.lstripDashes sortSpec))) :=
        ⟨fun a b => le_total _ _⟩
      haveI : IsTrans FilmDoc
          (descRel (es.fieldKey (FilmService.lstripDashes sortSpec))) :=
        ⟨fun _ _ _ h1 h2 => le_trans h2 h1⟩
      exact List.sorted_insertionSort _ _
    have htake := List.Pairwise.sublist (List.take_sublist size _) hs
    rw [EsFilmStore.sortedDocs]
    simp only [if_pos rfl]
    exact List.pairwise_map.mpr htake
  · have hs : List.Sorted (ascRel (es.fieldKey (FilmService.lstripDashes sortSpec)))
        (List.insertionSort (ascRel (es.fieldKey (FilmService.lstripDashes sortSpec)))
          es.docs) := by
      haveI : IsTotal FilmDoc
          (ascRel (es.fieldKey (FilmService.lstripDashes sortSpec))) :=
        ⟨fun a b => le_total _ _⟩
      haveI : IsTrans FilmDoc
          (ascRel (es.fieldKey (FilmService.lstripDashes sortSpec))) :=
        ⟨fun _ _ _ h1 h2 => le_trans h1 h2⟩
      exact List.sorted_insertionSort _ _
    have htake := List.Pairwise.sublist (List.take_sublist size _) hs
    rw [EsFilmStore.sortedDocs]
    simp only [Bool.false_eq_true, if_neg]
    exact List.pairwise_map.mpr htake

/-- C9 witness: a descending listing of the two-film fixture, evaluated. -/
theorem C9_witness :
    esFilms.down = false ∧
    FilmService.list_films esFilms emptyFilmCache 2 "-imdb_rating" =
      .ok ([FilmShort.mk "f2" "Beta" (some 9), FilmShort.mk "f1" "Alpha" (some 5)],
        emptyFilmCache) :=
  ⟨rfl, by
    have h := (C9_listing_reader_sorted esFilms 2 "-imdb_rating" rfl).1 emptyFilmCache
    exact h.trans (by decide)⟩

/-- C2: on a cache miss, search_persons returns exactly the role-labeled,
uuid-deduplicated (first occurrence wins) sub-entity references among the
per-role phrase-query candidates whose full name equals the query string
exactly; every returned name equals the query and no uuid repeats. -/
theorem C2_search_persons_exact_dedup (es : EsScanStore) (r : Redis RVal) (q : String)
    (hr : r.down = false) (hmiss : r.read (PersonService.searchKey q) = none)
    (hex : es.indexExists = true) :
    PersonService.search_persons es r q =
      .ok (specSearch es q,
        r.store (PersonService.searchKey q) (RVal.personList (specSearch es q))
          (some CACHE_TTL)) ∧
    (∀ p ∈ specSearch es q, p.full_name = q) ∧
    ((specSearch es q).map Person.uuid).Nodup := by
  refine ⟨search_persons_miss es r q hr hmiss hex, ?_, ?_⟩
  · intro p hp
    rw [specSearch] at hp
    obtain ⟨o, ho, rfl⟩ := List.mem_map.mp hp
    have hof := mem_of_mem_dedupByKey _ _ _ ho
    have hname := (List.mem_filter.mp hof).2
    simpa [mkSearchPerson] using of_decide_eq_true hname
  · rw [specSearch, List.map_map]
    exact nodup_keys_dedupByKey _ _

/-- C2 witness: searching the fixture for Alice returns only the exact
match (not the phrase-matching superstring Alice Smith), once, labeled
with the actor role. -/
theorem C2_witness :
    emptyRV.down = false ∧ emptyRV.read (PersonService.searchKey "Alice") = none ∧
    esScan.indexExists = true ∧
    PersonService.search_persons esScan emptyRV "Alice" =
      .ok ([Person.mk "p1" "Alice" (some "actor")],
        emptyRV.store (PersonService.searchKey "Alice")
          (RVal.personList [Person.mk "p1" "Alice" (some "actor")]) (some CACHE_TTL)) :=
  ⟨rfl, rfl, rfl, by
    have h := (C2_search_persons_exact_dedup esScan emptyRV "Alice" rfl rfl rfl).1
    exact h.trans (by decide)⟩

/-- C4: building from an empty cached seed over a completed scan writes
two mappings whose key sets are exactly the distinct tag and sub-entity
ids occurring in the scanned documents, and whose recorded name for each
id is the one from its first occurrence (first writer wins). -/
theorem C4_build_first_writer_wins (es : EsScanStore) (r : Redis RVal)
    (hr : r.down = false) (hg : r.read "genres_cache" = none)
    (hp : r.read "persons_cache" = none) (hex : es.indexExists = true)
    (hb : ∀ b ∈ es.batches, b ≠ []) (hfail : es.failAt = none) :
    ((build_cache_on_startup es r).1.read "genres_cache" =
      some (RVal.map
        ((allGenreOccs es.collection).foldl (fun m o => insertIfNew m o.1 o.2) []))) ∧
    ((build_cache_on_startup es r).1.read "persons_cache" =
      some (RVal.map
        ((allPersonOccs es.collection).foldl (fun m o => insertIfNew m o.1 o.2) []))) ∧
    (∀ k, k ∈ ((allGenreOccs es.collection).foldl
          (fun m o => insertIfNew m o.1 o.2) []).map Prod.fst ↔
        k ∈ (allGenreOccs es.collection).map Prod.fst) ∧
    (∀ k, k ∈ ((allPersonOccs es.collection).foldl
          (fun m o => insertIfNew m o.1 o.2) []).map Prod.fst ↔
        k ∈ (allPersonOccs es.collection).map Prod.fst) ∧
    (∀ k, assocFind
        ((allGenreOccs es.collection).foldl (fun m o => insertIfNew m o.1 o.2) []) k =
      ((allGenreOccs es.collection).find? (fun o => decide (o.1 = k))).map Prod.snd) ∧
    (∀ k, assocFind
        ((allPersonOccs es.collection).foldl (fun m o => insertIfNew m o.1 o.2) []) k =
      ((allPersonOccs es.collection).find? (fun o => decide (o.1 = k))).map Prod.snd) := by
  have h1 : r.get? "genres_cache" = .ok none := by rw [redis_get?_up _ _ hr, hg]
  have h2 : r.get? "persons_cache" = .ok none := by rw [redis_get?_up _ _ hr, hp]
  have hscan : scroll_all_movies es = (es.collection, true) := by
    rw [scroll_all_movies, if_neg (by simp [hex]), hfail]
    exact scrollGo_complete es.batches hb 0
  have hbuild : build_cache_on_startup es r =
      ((r.store "genres_cache"
          (RVal.map ((allGenreOccs es.collection).foldl
            (fun m o => insertIfNew m o.1 o.2) [])) none).store "persons_cache"
          (RVal.map ((allPersonOccs es.collection).foldl
            (fun m o => insertIfNew m o.1 o.2) [])) none,
        .ok (((allGenreOccs es.collection).foldl
            (fun m o => insertIfNew m o.1 o.2) []).length,
          ((allPersonOccs es.collection).foldl
            (fun m o => insertIfNew m o.1 o.2) []).length)) := by
    simp [build_cache_on_startup, h1, h2, seedOfVal, hscan, Redis.set,
      redis_store_down, hr, foldl_addDocGenres, foldl_addDocPersons]
  refine ⟨?_, ?_, ?_, ?_, ?_, ?_⟩
  · rw [hbuild]
    rw [redis_read_store_other _ _ _ _ _ (by decide), redis_read_store_same]
  · rw [hbuild]
    exact redis_read_store_same _ _ _ _
  · intro k
    rw [mem_keys_foldl_insertIfNew]
    simp
  · intro k
    rw [mem_keys_foldl_insertIfNew]
    simp
  · intro k
    rw [assocFind_foldl_insertIfNew, assocFind_nil, Option.none_or]
  · intro k
    rw [assocFind_foldl_insertIfNew, assocFind_nil, Option.none_or]

/-- C4 witness: the fixture scan sees tag g1 twice with different names
and person p3 twice with different names; the cached mappings keep the
first-seen names. -/
theorem C4_witness :
    emptyRV.down = false ∧ emptyRV.read "genres_cache" = none ∧
    emptyRV.read "persons_cache" = none ∧ esScan.indexExists = true ∧
    (build_cache_on_startup esScan emptyRV).1.read "genres_cache" =
      some (RVal.map [("g1", "Drama"), ("g2", "Comedy")]) :=
  ⟨rfl, rfl, rfl, rfl, by
    have h := (C4_build_first_writer_wins esScan emptyRV rfl rfl rfl rfl
      (by decide) rfl).1
    exact h.trans (by decide)⟩

/-- C5: on a cache miss, list_persons scans the whole collection,
accumulates uuid to full name across all roles with dict assignment (last
writer wins, first-occurrence position), returns the slice
[(page-1)*size, (page-1)*size+size) of the accumulated insertion order,
and returns the empty page on an empty collection. -/
theorem C5_list_persons_pagination (es : EsScanStore) (r : Redis RVal)
    (page size : Nat) (hr : r.down = false)
    (hmiss : r.read (PersonService.pageKey page size) = none)
    (hex : es.indexExists = true) (hb : ∀ b ∈ es.batches, b ≠ [])
    (hfail : es.failAt = none) (hpage : 1 ≤ page) :
    PersonService.list_persons es r size page =
      .ok (((((allPersonOccs es.collection).foldl (fun m o => upsert m o.1 o.2) []).drop
              ((page - 1) * size)).take size).map (fun kv => Person.mk kv.1 kv.2 none),
        r.store (PersonService.pageKey page size)
          (RVal.map ((((allPersonOccs es.collection).foldl
              (fun m o => upsert m o.1 o.2) []).drop ((page - 1) * size)).take size))
          (some CACHE_TTL)) ∧
    (∀ k, assocFind
        ((allPersonOccs es.collection).foldl (fun m o => upsert m o.1 o.2) []) k =
      ((allPersonOccs es.collection).reverse.find? (fun o => decide (o.1 = k))).map
        Prod.snd) ∧
    (es.batches = [] →
      PersonService.list_persons es r size page =
        .ok ([], r.store (PersonService.pageKey page size) (RVal.map [])
          (some CACHE_TTL))) := by
  have hscan : es.scanDocs = .ok es.collection := by
    rw [EsScanStore.scanDocs, if_neg (by simp [hex]), hfail,
      scrollGo_complete es.batches hb 0]
    rfl
  refine ⟨?_, ?_, ?_⟩
  · simp [PersonService.list_persons, Redis.get?, Redis.set, hr, hmiss, hscan,
      except_bind_ok, foldl_addDocPersonsUpsert]
  · intro k
    rw [assocFind_foldl_upsert, assocFind_nil, Option.or_none]
  · intro hempty
    have hcol : es.collection = [] := by simp [EsScanStore.collection, hempty]
    simp [PersonService.list_persons, Redis.get?, Redis.set, hr, hmiss, hscan, hcol,
      except_bind_ok]

/-- C5 witness: page 2 of size 2 over the fixture returns the third
accumulated person, whose recorded name is the last-written one. -/
theorem C5_witness :
    emptyRV.down = false ∧
    emptyRV.read (PersonService.pageKey 2 2) = none ∧
    esScan.indexExists = true ∧ 1 ≤ 2 ∧
    PersonService.list_persons esScan emptyRV 2 2 =
      .ok ([Person.mk "p3" "Bobby" none],
        emptyRV.store (PersonService.pageKey 2 2)
          (RVal.map [("p3", "Bobby")]) (some CACHE_TTL)) :=
  ⟨rfl, rfl, rfl, by decide, by
    have h := (C5_list_persons_pagination esScan emptyRV 2 2 rfl rfl rfl
      (by decide) rfl (by decide)).1
    exact h.trans (by decide)⟩

/-- C6 counterexample: the person is found under the actors partition of
the fixture, but the returned Person carries no role label (role is None),
contradicting the claim that the role label of the winning partition is
attached. -/
theorem C6_counterexample_role_not_attached :
    PersonService.get_person_by_id esScan emptyRV "p1" =
      .ok (some (Person.mk "p1" "Alice" none),
        emptyRV.store (PersonService.personKey "p1")
          (RVal.person (Person.mk "p1" "Alice" none)) (some CACHE_TTL)) ∧
    (Person.mk "p1" "Alice" none).role ≠ some "actor" :=
  ⟨by decide, by decide⟩

/-- C6 amended: on a cache miss, get_person_by_id takes the first parent
document matching the disjunctive per-role uuid query, scans its three
role lists and returns the first reference with the requested uuid, with
no role label attached (role is None), caching it under the per-id key;
when no parent matches, it returns none with no cache write. -/
theorem C6_get_person_by_id_amended (es : EsScanStore) (r : Redis RVal) (pid : String)
    (hr : r.down = false) (hmiss : r.read (PersonService.personKey pid) = none)
    (hex : es.indexExists = true) :
    (es.collection.find? (fun d => PersonService.MovieDoc.hasPersonId d pid) = none →
      PersonService.get_person_by_id es r pid = .ok (none, r)) ∧
    (∀ d p, es.collection.find? (fun d => PersonService.MovieDoc.hasPersonId d pid) =
        some d →
      PersonService.firstRoleHit d pid = some p →
      PersonService.get_person_by_id es r pid =
        .ok (some p, r.store (PersonService.personKey pid) (RVal.person p)
          (some CACHE_TTL)) ∧
      p.role = none) := by
  constructor
  · intro hfind
    have h1 := filter_take_one_none _ es.collection hfind
    simp [PersonService.get_person_by_id, Redis.get?, hr, hmiss, hex, h1]
    try rfl
  · intro d p hfind hrole
    have h1 := filter_take_one_some _ es.collection d hfind
    have hprole : p.role = none := by
      rw [PersonService.firstRoleHit] at hrole
      obtain ⟨x, hxo, hxe⟩ := Option.map_eq_some'.mp hrole
      rw [← hxe]
    refine ⟨?_, hprole⟩
    simp [PersonService.get_person_by_id, Redis.get?, Redis.set, hr, hmiss, hex, h1,
      hrole]
    try rfl

/-- C6 amended witness: the found branch of the amended statement at the
fixture, evaluated. -/
theorem C6_witness :
    emptyRV.down = false ∧
    emptyRV.read (PersonService.personKey "p3") = none ∧
    esScan.indexExists = true ∧
    PersonService.get_person_by_id esScan emptyRV "p3" =
      .ok (some (Person.mk "p3" "Bob" none),
        emptyRV.store (PersonService.personKey "p3")
          (RVal.person (Person.mk "p3" "Bob" none)) (some CACHE_TTL)) :=
  ⟨rfl, rfl, rfl, by
    have h := ((C6_get_person_by_id_amended esScan emptyRV "p3" rfl rfl rfl).2
      mdoc1 (Person.mk "p3" "Bob" none) (by decide) (by decide)).1
    exact h⟩

/-- C8: when the scan fails partway (the k-th fetch raises while the
batches are still being consumed), the build pass returns the
infrastructure error and the cache state is exactly the input state:
neither derived-index key is written. -/
theorem C8_build_aborts_on_scan_failure (es : EsScanStore) (r : Redis RVal) (k : Nat)
    (hr : r.down = false) (hg : isMapVal (r.read "genres_cache") = true)
    (hp : isMapVal (r.read "persons_cache") = true)
    (hex : es.indexExists = true) (hb : ∀ b ∈ es.batches, b ≠ [])
    (hfail : es.failAt = some k) (hk : k ≤ es.batches.length) :
    build_cache_on_startup es r = (r, .error .storeUnreachable) := by
  have h1 : r.get? "genres_cache" = .ok (r.read "genres_cache") := redis_get?_up _ _ hr
  have h2 : r.get? "persons_cache" = .ok (r.read "persons_cache") := redis_get?_up _ _ hr
  obtain ⟨mg, hmg⟩ : ∃ m, seedOfVal (r.read "genres_cache") = .ok m := by
    cases hv : r.read "genres_cache" with
    | none => exact ⟨[], rfl⟩
    | some v =>
      cases v with
      | map m => exact ⟨m, rfl⟩
      | person p => rw [hv] at hg; simp [isMapVal] at hg
      | personList ps => rw [hv] at hg; simp [isMapVal] at hg
  obtain ⟨mp, hmp⟩ : ∃ m, seedOfVal (r.read "persons_cache") = .ok m := by
    cases hv : r.read "persons_cache" with
    | none => exact ⟨[], rfl⟩
    | some v =>
      cases v with
      | map m => exact ⟨m, rfl⟩
      | person p => rw [hv] at hp; simp [isMapVal] at hp
      | personList ps => rw [hv] at hp; simp [isMapVal] at hp
  have hscan2 : (scroll_all_movies es).2 = false := by
    rw [scroll_all_movies, if_neg (by simp [hex]), hfail]
    exact scrollGo_fail es.batches 0 k hb (Nat.zero_le k) (by simpa using hk)
  simp [build_cache_on_startup, h1, h2, hmg, hmp, hscan2]

/-- C8 witness: the failing-scan fixture aborts the build with the cache
untouched. -/
theorem C8_witness :
    emptyRV.down = false ∧ isMapVal (emptyRV.read "genres_cache") = true ∧
    esScanFail.indexExists = true ∧ esScanFail.failAt = some 1 ∧
    (1 : Nat) ≤ esScanFail.batches.length ∧
    build_cache_on_startup esScanFail emptyRV = (emptyRV, .error .storeUnreachable) :=
  ⟨rfl, rfl, rfl, rfl, by decide,
    C8_build_aborts_on_scan_failure esScanFail emptyRV 1 rfl rfl rfl rfl
      (by decide) rfl (by decide)⟩

/-- C10: on a cache miss, search_persons always writes its result to the
search key with the fixed TTL, including an empty result, so the key is
populated and a repeated identical search is served from cache with no
store interaction (the second call returns the same result for every
store state); by contrast, the id-lookup path writes nothing on
not-found. -/
theorem C10_search_negative_caching (es : EsScanStore) (r : Redis RVal) (q : String)
    (hr : r.down = false) (hmiss : r.read (PersonService.searchKey q) = none)
    (hex : es.indexExists = true) :
    PersonService.search_persons es r q =
      .ok (specSearch es q,
        r.store (PersonService.searchKey q) (RVal.personList (specSearch es q))
          (some CACHE_TTL)) ∧
    ((r.store (PersonService.searchKey q) (RVal.personList (specSearch es q))
        (some CACHE_TTL)).read (PersonService.searchKey q) =
      some (RVal.personList (specSearch es q))) ∧
    (∀ es₂ : EsScanStore,
      PersonService.search_persons es₂
          (r.store (PersonService.searchKey q) (RVal.personList (specSearch es q))
            (some CACHE_TTL)) q =
        .ok (specSearch es q,
          r.store (PersonService.searchKey q) (RVal.personList (specSearch es q))
            (some CACHE_TTL))) ∧
    (∀ pid, r.read (PersonService.personKey pid) = none →
      es.collection.find? (fun d => PersonService.MovieDoc.hasPersonId d pid) = none →
      PersonService.get_person_by_id es r pid = .ok (none, r)) := by
  refine ⟨search_persons_miss es r q hr hmiss hex, redis_read_store_same _ _ _ _, ?_, ?_⟩
  · intro es₂
    simp [PersonService.search_persons, Redis.get?, redis_store_down, hr,
      redis_read_store_same]
    try rfl
  · intro pid hpmiss hfind
    have h1 := filter_take_one_none _ es.collection hfind
    simp [PersonService.get_person_by_id, Redis.get?, hr, hpmiss, hex, h1]
    try rfl

/-- C10 witness: a query matching nothing is negatively cached and a
repeated search returns the empty result from cache even against a store
whose index is gone. -/
theorem C10_witness :
    emptyRV.down = false ∧ emptyRV.read (PersonService.searchKey "Zed") = none ∧
    esScan.indexExists = true ∧
    PersonService.search_persons esScan emptyRV "Zed" =
      .ok ([], emptyRV.store (PersonService.searchKey "Zed") (RVal.personList [])
        (some CACHE_TTL)) ∧
    PersonService.search_persons esScanNoIndex
        (emptyRV.store (PersonService.searchKey "Zed") (RVal.personList [])
          (some CACHE_TTL)) "Zed" =
      .ok ([], emptyRV.store (PersonService.searchKey "Zed") (RVal.personList [])
        (some CACHE_TTL)) :=
  ⟨rfl, rfl, rfl, by
    have h := (C10_search_negative_caching esScan emptyRV "Zed" rfl rfl rfl).1
    exact h.trans (by decide), by
    have h := (C10_search_negative_caching esScan emptyRV "Zed" rfl rfl rfl).2.2.1
      esScanNoIndex
    exact h.trans (by decide)⟩

end AsyncApi
